import Mathlib

/-!
Verification development for the tool-call intermediate format and the
local-runtime free-text tool-call parser of the modular-prompt repository.

The embedding models:
* a JSON value type (`Json`) with an extra `undefined` constructor standing for
  the JavaScript `undefined` value, so that property access on objects and
  JavaScript truthiness can be translated faithfully;
* an executable JSON parser (`jsonParse`) and serializer (`jsonStringify`)
  standing for `JSON.parse` / `JSON.stringify` on the fragment of JSON the
  repository's data actually exercises (integer numerals; fractional and
  exponent forms are not produced by any input this development evaluates);
* the free-text parser `parseToolCalls` of
  `packages/driver/src/mlx-ml/tool-call-parser.ts` with its detection
  cascade, span scanner, interior-content parsers and id assignment;
* the tool-call paths of the Anthropic driver (stream accumulation and
  finalization, `query` delegation) and of the GoogleGenAI driver
  (`extractToolCalls`, stream accumulation, `chatMessageToContent`,
  `query` error handling) from
  `packages/driver/src/anthropic/anthropic-driver.ts` and
  `packages/driver/src/google-genai/google-genai-driver.ts`.
-/

/-- JSON values as produced by `JSON.parse`, extended with `undefined` for the
JavaScript `undefined` value returned by a missing property access.
`jsonParse` never produces `undefined`. Objects keep fields in source order and
may repeat a key; property lookup takes the last occurrence, as JavaScript
object literals and `JSON.parse` do. -/
inductive Json where
  | undefined : Json
  | null : Json
  | bool : Bool → Json
  | num : Int → Json
  | str : String → Json
  | arr : List Json → Json
  | obj : List (String × Json) → Json
deriving Repr

/-- JavaScript truthiness of a value. -/
def Json.truthy : Json → Bool
  | .undefined => false
  | .null => false
  | .bool b => b
  | .num n => decide (n ≠ 0)
  | .str s => decide (s ≠ "")
  | .arr _ => true
  | .obj _ => true

/-- Last binding of a key in an association list (JavaScript objects keep the
last of a repeated key). -/
def lookupLast (k : String) : List (String × Json) → Option Json
  | [] => none
  | (k2, v) :: t =>
    match lookupLast k t with
    | some r => some r
    | none => if k2 = k then some v else none

/-- JavaScript property access `o[k]`: the field's value on an object, and
`undefined` on anything that is not an object (matching `(5).name`,
`"x".name`, `[].name`, all of which are `undefined`; access on `null` or
`undefined` throws and is modelled separately where the source can hit it). -/
def Json.getField (j : Json) (k : String) : Json :=
  match j with
  | .obj fields => (lookupLast k fields).getD .undefined
  | _ => .undefined

/-- JavaScript `a || b`. -/
def jsOr (a b : Json) : Json := if a.truthy then a else b

/-- Is the value a JavaScript object in the `typeof` sense (plain object or
array; `null` is excluded by the truthiness guard at every use site). -/
def Json.isObjectLike : Json → Bool
  | .obj _ => true
  | .arr _ => true
  | _ => false

/-- JSON string-content escaping as performed by `JSON.stringify`. -/
def escapeJsonChar (c : Char) : List Char :=
  if c = '"' then ['\\', '"']
  else if c = '\\' then ['\\', '\\']
  else if c = '\n' then ['\\', 'n']
  else if c = '\t' then ['\\', 't']
  else if c = '\r' then ['\\', 'r']
  else [c]

/-- Serialize a string literal the way `JSON.stringify` does. -/
def stringifyStr (s : String) : String :=
  "\"" ++ String.mk (s.toList.flatMap escapeJsonChar) ++ "\""

mutual
/-- `JSON.stringify` on the modelled JSON fragment: no inserted whitespace,
fields in insertion order. `undefined` cannot reach this function from the
modelled code paths (every call site replaces nullish input by `{}`). -/
def jsonStringify : Json → String
  | .undefined => "null"
  | .null => "null"
  | .bool b => if b then "true" else "false"
  | .num n => toString n
  | .str s => stringifyStr s
  | .arr items => "[" ++ stringifyList items ++ "]"
  | .obj fields => "\x7b" ++ stringifyFields fields ++ "\x7d"

/-- Comma-joined serialization of array elements. -/
def stringifyList : List Json → String
  | [] => ""
  | [x] => jsonStringify x
  | x :: y :: t => jsonStringify x ++ "," ++ stringifyList (y :: t)

/-- Comma-joined serialization of object fields. -/
def stringifyFields : List (String × Json) → String
  | [] => ""
  | [(k, v)] => stringifyStr k ++ ":" ++ jsonStringify v
  | (k, v) :: f :: t => stringifyStr k ++ ":" ++ jsonStringify v ++ "," ++ stringifyFields (f :: t)
end

/-- JSON insignificant whitespace. -/
def jsonWs (c : Char) : Bool :=
  c = ' ' || c = '\t' || c = '\n' || c = '\r'

/-- Drop leading JSON whitespace. -/
def skipWs (cs : List Char) : List Char := cs.dropWhile jsonWs

/-- Decimal digit test. -/
def isDigitCh (c : Char) : Bool := c.isDigit

/-- Value of a hexadecimal digit character, if it is one. -/
def hexDigitValue (c : Char) : Option Nat :=
  let n := c.toNat
  if 48 ≤ n && n ≤ 57 then some (n - 48)
  else if 97 ≤ n && n ≤ 102 then some (n - 87)
  else if 65 ≤ n && n ≤ 70 then some (n - 55)
  else none

/-- Scan the body of a JSON string literal (the opening quote already
consumed), returning the decoded characters and the rest of the input. -/
def jStringBody : List Char → Option (List Char × List Char)
  | [] => none
  | '"' :: rest => some ([], rest)
  | '\\' :: e :: rest =>
    match e with
    | '"' => (jStringBody rest).map (fun (s, r) => ('"' :: s, r))
    | '\\' => (jStringBody rest).map (fun (s, r) => ('\\' :: s, r))
    | '/' => (jStringBody rest).map (fun (s, r) => ('/' :: s, r))
    | 'n' => (jStringBody rest).map (fun (s, r) => ('\n' :: s, r))
    | 't' => (jStringBody rest).map (fun (s, r) => ('\t' :: s, r))
    | 'r' => (jStringBody rest).map (fun (s, r) => ('\r' :: s, r))
    | 'b' => (jStringBody rest).map (fun (s, r) => ('\x08' :: s, r))
    | 'f' => (jStringBody rest).map (fun (s, r) => ('\x0c' :: s, r))
    | 'u' =>
      match rest with
      | a :: b :: c :: d :: rest2 =>
        match hexDigitValue a, hexDigitValue b, hexDigitValue c, hexDigitValue d with
        | some x, some y, some z, some w =>
          let n := ((x * 16 + y) * 16 + z) * 16 + w
          (jStringBody rest2).map (fun (s, r) => (Char.ofNat n :: s, r))
        | _, _, _, _ => none
      | _ => none
    | _ => none
  | '\\' :: [] => none
  | c :: rest =>
    if c.toNat < 32 then none
    else (jStringBody rest).map (fun (s, r) => (c :: s, r))

/-- Numeric value of a run of decimal digit characters. -/
def decDigitsVal : List Char → Nat → Nat
  | [], acc => acc
  | d :: ds, acc => decDigitsVal ds (10 * acc + (d.toNat - 48))

/-- Parse a JSON integer numeral (strict grammar: optional minus, then `0` or
a nonzero-led digit run; a following `.`, `e` or `E` makes the numeral a
form this model does not cover and the parse fails). -/
def jNumber (cs : List Char) : Option (Json × List Char) :=
  let (neg, cs1) := match cs with
    | '-' :: t => (true, t)
    | _ => (false, cs)
  let ds := cs1.takeWhile isDigitCh
  let rest := cs1.drop ds.length
  if ds.isEmpty then none
  else if ds.length > 1 && ds.headI = '0' then none
  else
    match rest with
    | '.' :: _ => none
    | 'e' :: _ => none
    | 'E' :: _ => none
    | _ =>
      let n : Int := Int.ofNat (decDigitsVal ds 0)
      some (.num (if neg then -n else n), rest)

mutual
/-- Fuel-indexed JSON value parser standing for `JSON.parse`. Returns the
value and the unconsumed suffix. -/
def jValue : Nat → List Char → Option (Json × List Char)
  | 0, _ => none
  | fuel + 1, cs =>
    match skipWs cs with
    | '\x7b' :: t => jObjBody fuel (skipWs t) []
    | '[' :: t => jArrBody fuel (skipWs t) []
    | '"' :: t => (jStringBody t).map (fun (s, r) => (Json.str (String.mk s), r))
    | 't' :: 'r' :: 'u' :: 'e' :: t => some (.bool true, t)
    | 'f' :: 'a' :: 'l' :: 's' :: 'e' :: t => some (.bool false, t)
    | 'n' :: 'u' :: 'l' :: 'l' :: t => some (.null, t)
    | other => jNumber other

/-- Object fields after the opening brace (leading whitespace consumed). -/
def jObjBody : Nat → List Char → List (String × Json) → Option (Json × List Char)
  | 0, _, _ => none
  | fuel + 1, cs, acc =>
    match cs with
    | '\x7d' :: t =>
      if acc.isEmpty then some (.obj [], t) else none
    | '"' :: t =>
      match jStringBody t with
      | none => none
      | some (k, r) =>
        match skipWs r with
        | ':' :: r2 =>
          match jValue fuel r2 with
          | none => none
          | some (v, r3) =>
            match skipWs r3 with
            | ',' :: r4 => jObjBody fuel (skipWs r4) (acc ++ [(String.mk k, v)])
            | '\x7d' :: r4 => some (.obj (acc ++ [(String.mk k, v)]), r4)
            | _ => none
        | _ => none
    | _ => none

/-- Array elements after the opening bracket (leading whitespace consumed). -/
def jArrBody : Nat → List Char → List Json → Option (Json × List Char)
  | 0, _, _ => none
  | fuel + 1, cs, acc =>
    match cs with
    | ']' :: t =>
      if acc.isEmpty then some (.arr [], t) else none
    | _ =>
      match jValue fuel cs with
      | none => none
      | some (v, r) =>
        match skipWs r with
        | ',' :: r2 => jArrBody fuel (skipWs r2) (acc ++ [v])
        | ']' :: r2 => some (.arr (acc ++ [v]), r2)
        | _ => none
end

/-- `JSON.parse`: a complete value with only whitespace around it, or
failure (the TypeScript call sites catch the thrown `SyntaxError`, which this
model renders as `none`). -/
def jsonParse (s : String) : Option Json :=
  match jValue (2 * s.length + 8) s.toList with
  | some (v, rest) => if (skipWs rest).isEmpty then some v else none
  | none => none

/-- The whitespace class of JavaScript's `\s` and `String.trim`, restricted
to the ASCII characters the repository's inputs contain. -/
def wsJs (c : Char) : Bool :=
  c = ' ' || c = '\t' || c = '\n' || c = '\r' || c = '\x0b' || c = '\x0c'

/-- Trim `wsJs` characters from both ends, as `String.prototype.trim`. -/
def trimChars (cs : List Char) : List Char :=
  ((cs.dropWhile wsJs).reverse.dropWhile wsJs).reverse

/-- `String.prototype.trim`. -/
def trimStr (s : String) : String := String.mk (trimChars s.toList)

/-- Index of the first occurrence of `pat` in `cs` (an empty pattern occurs
at index 0), as `String.prototype.indexOf`. -/
def findSub (pat : List Char) : List Char → Option Nat
  | [] => if pat.isEmpty then some 0 else none
  | c :: t =>
    if pat.isPrefixOf (c :: t) then some 0
    else (findSub pat t).map (· + 1)

/-- One step of the global scan of the lazy pattern
`start([\s\S]*?)end`: the match begins at the first occurrence of the start
delimiter that is followed by an occurrence of the end delimiter, and the
interior runs to the first such end occurrence. Returns
(text before the span, interior, text after the span). -/
def findSpan (s e cs : List Char) : Option (List Char × List Char × List Char) :=
  match findSub s cs with
  | none => none
  | some i =>
    let pre := cs.take i
    let rest := cs.drop (i + s.length)
    match findSub e rest with
    | none => none
    | some j =>
      some (pre, rest.take j, rest.drop (j + e.length))

/-- Repeated span scan (fuel-indexed; a span consuming no characters, which
only a degenerate empty delimiter pair can produce, advances by one character
the way the JavaScript `exec` loop must to terminate). Returns the list of
(preceding text, interior) pairs and the trailing text after the last span. -/
def splitSpansF (s e : List Char) : Nat → List Char → List (List Char × List Char) × List Char
  | 0, cs => ([], cs)
  | fuel + 1, cs =>
    match findSpan s e cs with
    | none => ([], cs)
    | some (pre, interior, after) =>
      let after2 := if pre.length + s.length + interior.length + e.length = 0
        then cs.drop 1 else after
      let (ps, tr) := splitSpansF s e fuel after2
      ((pre, interior) :: ps, tr)

/-- All non-overlapping `start…end` spans of `cs`, leftmost-first with
shortest interiors, as matched by the global regex built in
`parseWithDelimiters`. -/
def splitSpans (s e cs : List Char) : List (List Char × List Char) × List Char :=
  splitSpansF s e (cs.length + 1) cs

/-- The text with every matched span deleted, as
`text.replace(regex, '')`. -/
def removeSpans (s e cs : List Char) : List Char :=
  let (ps, tr) := splitSpans s e cs
  (ps.map Prod.fst).flatten ++ tr

/-- A tool call as recovered from one span's interior
(`ParsedToolCall` in tool-call-parser.ts). The TypeScript declares
`name: string` and `arguments: Record<string, unknown>`, but the
implementation can place any runtime value in either field, so both are
modelled as JSON values. -/
structure ParsedToolCall where
  name : Json
  arguments : Json
deriving Repr

/-- The `typeof args === 'string'` unwrapping step shared by the `name` and
`function` branches of `normalizeJsonToolCall`: a string-valued arguments
field is `JSON.parse`d, and a failing parse is replaced by `{}`. -/
def parseArgsField (args : Json) : Json :=
  match args with
  | .str s =>
    match jsonParse s with
    | some v => v
    | none => .obj []
  | _ => args

/-- `normalizeJsonToolCall`. Property access on `null` or `undefined` throws
in JavaScript, which the `Except` layer records; every other input reaches
one of the three shape branches or `null` (here `Except.ok none`). -/
def normalizeJsonToolCall (j : Json) : Except Unit (Option ParsedToolCall) :=
  match j with
  | .null => .error ()
  | .undefined => .error ()
  | _ =>
    if (j.getField "name").truthy then
      .ok (some ⟨j.getField "name",
        parseArgsField (jsOr (j.getField "arguments") (jsOr (j.getField "parameters") (.obj [])))⟩)
    else if (j.getField "function").truthy && (j.getField "function").isObjectLike
        && ((j.getField "function").getField "name").truthy then
      .ok (some ⟨(j.getField "function").getField "name",
        parseArgsField (jsOr ((j.getField "function").getField "arguments")
          (jsOr ((j.getField "function").getField "parameters") (.obj [])))⟩)
    else if (j.getField "tool").truthy && (j.getField "tool").isObjectLike
        && ((j.getField "tool").getField "name").truthy then
      .ok (some ⟨(j.getField "tool").getField "name",
        jsOr ((j.getField "tool").getField "arguments")
          (jsOr ((j.getField "tool").getField "parameters") (.obj []))⟩)
    else
      .ok none

/-- `parsed.map(normalizeJsonToolCall).filter(nonNull)` over an array
payload: every element is normalized (a thrown access aborts the whole
array) and the null results are dropped. -/
def normalizeItems : List Json → Except Unit (List ParsedToolCall)
  | [] => .ok []
  | j :: t =>
    match normalizeJsonToolCall j with
    | .error e => .error e
    | .ok none => normalizeItems t
    | .ok (some p) => (normalizeItems t).map (p :: ·)

/-- `parseJsonToolCallContent`: parse the interior as JSON; an array
normalizes element-wise (empty result is `null`), any other value is
normalized directly; a parse failure or a thrown access yields `null`.
The object case is returned as a one-element list, matching the
`Array.isArray(parsed) ? parsed : [parsed]` wrapping at the call site. -/
def parseJsonToolCallContent (content : String) : Option (List ParsedToolCall) :=
  match jsonParse content with
  | none => none
  | some (.arr items) =>
    match normalizeItems items with
    | .error _ => none
    | .ok results => if results.isEmpty then none else some results
  | some j =>
    match normalizeJsonToolCall j with
    | .error _ => none
    | .ok none => none
    | .ok (some p) => some [p]

/-- `Number(value)` restricted to the integer numerals the inputs contain:
surrounding whitespace is ignored, an optional sign precedes a digit run,
and anything else is `NaN` (rendered `none`). -/
def jsNumberInt (s : String) : Option Int :=
  let cs := trimChars s.toList
  match cs with
  | [] => some 0
  | _ =>
    let (neg, ds) := match cs with
      | '-' :: t => (true, t)
      | '+' :: t => (false, t)
      | _ => (false, cs)
    if !ds.isEmpty && ds.all isDigitCh then
      let n : Int := Int.ofNat (decDigitsVal ds 0)
      some (if neg then -n else n)
    else none

/-- `coerceValue`: literal-coerce a scalar argument string. -/
def coerceValue : Option String → Json
  | none => .null
  | some v =>
    if v = "None" || v = "null" then .null
    else if v = "True" || v = "true" then .bool true
    else if v = "False" || v = "false" then .bool false
    else
      match jsNumberInt v with
      | some n => if v = "" then .str v else .num n
      | none => .str v

/-- JavaScript object assignment `args[key] = v`: an existing key is
overwritten in place, a new key is appended. -/
def upsertField (key : String) (v : Json) : List (String × Json) → List (String × Json)
  | [] => [(key, v)]
  | (k, w) :: t => if k = key then (key, v) :: t else (k, w) :: upsertField key v t

/-- Word character of the regex class `\w`. -/
def isWordChar (c : Char) : Bool := c.isAlphanum || c = '_'

/-- Content of a quoted argument value: the regex group
`((?:[^q\\]|\\.)*)` keeps escape sequences verbatim and stops at the first
unescaped closing quote. Returns the raw content and the rest. -/
def takeQuoted (q : Char) : List Char → Option (List Char × List Char)
  | [] => none
  | c :: t =>
    if c = q then some ([], t)
    else if c = '\\' then
      match t with
      | [] => none
      | e :: t2 => (takeQuoted q t2).map (fun (s, r) => (c :: e :: s, r))
    else (takeQuoted q t).map (fun (s, r) => (c :: s, r))

/-- The `key=value` extraction loop of `parsePythonicToolCallContent`:
repeatedly look for `(\w+)\s*=\s*` followed by a double-quoted,
single-quoted, or unquoted scalar, each required to be followed by optional
whitespace and a comma or the end of the argument text; a failed attempt
resumes one character later, as the global regex scan does. -/
def pythonicArgsLoop : Nat → List Char → List (String × Json) → List (String × Json)
  | 0, _, acc => acc
  | _, [], acc => acc
  | fuel + 1, c :: t, acc =>
    if isWordChar c then
      let key := (c :: t).takeWhile isWordChar
      let afterKey := ((c :: t).drop key.length).dropWhile wsJs
      match afterKey with
      | '=' :: r2 =>
        let r3 := r2.dropWhile wsJs
        let quoted : Option (Json × List Char) :=
          match r3 with
          | '"' :: r4 => (takeQuoted '"' r4).map (fun (v, r5) => (Json.str (String.mk v), r5))
          | '\'' :: r4 => (takeQuoted '\'' r4).map (fun (v, r5) => (Json.str (String.mk v), r5))
          | _ =>
            let raw := r3.takeWhile (fun ch => ch ≠ ',' && ch ≠ ')')
            if raw.isEmpty then none
            else some (coerceValue (some (String.mk (trimChars raw))), r3.drop raw.length)
        match quoted with
        | none => pythonicArgsLoop fuel t acc
        | some (v, r5) =>
          match r5.dropWhile wsJs with
          | ',' :: r6 => pythonicArgsLoop fuel r6 (upsertField (String.mk key) v acc)
          | [] => upsertField (String.mk key) v acc
          | _ => pythonicArgsLoop fuel t acc
      | _ => pythonicArgsLoop fuel t acc
    else pythonicArgsLoop fuel t acc

/-- `parsePythonicToolCallContent`: the anchored pattern
`^\[(\w+)\((.*)\)\]$` with `s` flag — the name is the maximal word run after
the opening bracket, and the argument text runs from the parenthesis to the
closing `)]` that ends the content. -/
def parsePythonicToolCallContent (content : String) : Option ParsedToolCall :=
  match content.toList with
  | '[' :: rest =>
    let name := rest.takeWhile isWordChar
    if name.isEmpty then none
    else
      match rest.drop name.length with
      | '(' :: afterParen =>
        let n := afterParen.length
        if n ≥ 2 && afterParen.drop (n - 2) = [')', ']'] then
          let argsStr := trimChars (afterParen.take (n - 2))
          let args := if argsStr.isEmpty then [] else pythonicArgsLoop (argsStr.length + 1) argsStr []
          some ⟨.str (String.mk name), .obj args⟩
        else none
      | _ => none
  | _ => none

/-- Name character of the regex class `[\w.]`. -/
def xmlNameChar (c : Char) : Bool := isWordChar c || c = '.'

/-- The `<parameter…>value</parameter>` extraction loop shared by the two
XML vocabularies: `openTag` is the literal before the parameter name
(`<parameter=` or `<parameter name="`), `midTag` the literal between name
and value (`>` or `">`). Each value runs lazily to the first
`</parameter>` and is trimmed and literal-coerced. -/
def xmlParamsLoop (openTag midTag : List Char) : Nat → List Char → List (String × Json) → List (String × Json)
  | 0, _, acc => acc
  | fuel + 1, cs, acc =>
    match findSub openTag cs with
    | none => acc
    | some i =>
      let rest := (cs.drop (i + openTag.length))
      let pname := rest.takeWhile isWordChar
      let afterName := rest.drop pname.length
      if pname.isEmpty then xmlParamsLoop openTag midTag fuel (cs.drop (i + 1)) acc
      else if midTag.isPrefixOf afterName then
        let body := afterName.drop midTag.length
        match findSub ("</parameter>".toList) body with
        | some j =>
          let v := coerceValue (some (String.mk (trimChars (body.take j))))
          xmlParamsLoop openTag midTag fuel (body.drop (j + 12)) (upsertField (String.mk pname) v acc)
        | none => xmlParamsLoop openTag midTag fuel (cs.drop (i + 1)) acc
      else xmlParamsLoop openTag midTag fuel (cs.drop (i + 1)) acc

/-- Locate the first well-formed occurrence of
`openTag NAME midTag … closeTag` in the content, where `NAME` is a nonempty
`[\w.]+` run; a malformed occurrence makes the scan resume one character
later, as the unanchored regex search does. Returns the name and the body
between the tags. -/
def findXmlInvocation (openTag midTag closeTag : List Char) : Nat → List Char → Option (List Char × List Char)
  | 0, _ => none
  | fuel + 1, cs =>
    match findSub openTag cs with
    | none => none
    | some i =>
      let rest := cs.drop (i + openTag.length)
      let name := rest.takeWhile xmlNameChar
      let afterName := rest.drop name.length
      if name.isEmpty then findXmlInvocation openTag midTag closeTag fuel (cs.drop (i + 1))
      else if midTag.isPrefixOf afterName then
        let body := afterName.drop midTag.length
        match findSub closeTag body with
        | some j => some (name, body.take j)
        | none => findXmlInvocation openTag midTag closeTag fuel (cs.drop (i + 1))
      else findXmlInvocation openTag midTag closeTag fuel (cs.drop (i + 1))

/-- `parseXmlToolCallContent`: the `<function=name>…</function>` vocabulary
is tried first, then `<invoke name="name">…</invoke>`. -/
def parseXmlToolCallContent (content : String) : Option ParsedToolCall :=
  let cs := content.toList
  match findXmlInvocation ("<function=".toList) ['>'] ("</function>".toList) (cs.length + 1) cs with
  | some (name, body) =>
    some ⟨.str (String.mk name),
      .obj (xmlParamsLoop ("<parameter=".toList) ['>'] (body.length + 1) body [])⟩
  | none =>
    match findXmlInvocation ("<invoke name=\"".toList) ("\">".toList) ("</invoke>".toList) (cs.length + 1) cs with
    | some (name, body) =>
      some ⟨.str (String.mk name),
        .obj (xmlParamsLoop ("<parameter name=\"".toList) ("\">".toList) (body.length + 1) body [])⟩
    | none => none

/-- `parseToolCallContent`: JSON, then call-expression, then XML; the first
succeeding form wins; singletons come from the non-JSON forms. -/
def parseToolCallContent (content : String) : Option (List ParsedToolCall) :=
  match parseJsonToolCallContent content with
  | some r => some r
  | none =>
    match parsePythonicToolCallContent content with
    | some p => some [p]
    | none =>
      match parseXmlToolCallContent content with
      | some p => some [p]
      | none => none

/-- The intermediate `ToolCall` produced by the free-text parser
(core package type: `id`, `name`, `arguments`; the TypeScript field types
are `string` and `Record<string, unknown>` but the implementation can place
any runtime value in `name`/`arguments`, so both are JSON values here). -/
structure ToolCall where
  id : String
  name : Json
  arguments : Json
deriving Repr

/-- The synthesized sequential id `call_<n>`. -/
def callId (n : Nat) : String := "call_" ++ toString n

/-- `toolCalls.push({id: call_<callIndex++>, name, arguments: call.arguments || {}})`
over a flattened list of parsed calls, starting the counter at `n`. -/
def assignIds : Nat → List ParsedToolCall → List ToolCall
  | _, [] => []
  | n, c :: t => ⟨callId n, c.name, jsOr c.arguments (.obj [])⟩ :: assignIds (n + 1) t

/-- Result of a parse: the text with recognized spans removed, and the
detected calls (`ToolCallParseResult` in tool-call-parser.ts). -/
structure ToolCallParseResult where
  content : String
  toolCalls : List ToolCall
deriving Repr

/-- The calls recovered from the interiors of all matched spans, flattened
in span order, before id assignment (a span whose interior fails every
parse attempt contributes nothing; a span whose payload is an array may
contribute several calls). -/
def delimParsedCalls (text startDelimiter endDelimiter : String) : List ParsedToolCall :=
  (((splitSpans startDelimiter.toList endDelimiter.toList text.toList).1).map
    (fun sp => (parseToolCallContent (String.mk (trimChars sp.2))).getD [])).flatten

/-- `parseWithDelimiters`: scan all `start…end` spans, parse each trimmed
interior through the three-format cascade, assign sequential ids, and, when
at least one call was found, return the text with every matched span
removed and trimmed; otherwise return the text unchanged. -/
def parseWithDelimiters (text startDelimiter endDelimiter : String) : ToolCallParseResult :=
  ⟨if (assignIds 0 (delimParsedCalls text startDelimiter endDelimiter)).isEmpty then text
    else trimStr (String.mk (removeSpans startDelimiter.toList endDelimiter.toList text.toList)),
   assignIds 0 (delimParsedCalls text startDelimiter endDelimiter)⟩

/-- Index of the last occurrence of a character. -/
def lastIdxOf (c : Char) : List Char → Option Nat
  | [] => none
  | x :: t =>
    match lastIdxOf c t with
    | some k => some (k + 1)
    | none => if x = c then some 0 else none

/-- One match of the code-block pattern
`` ```json:toolCall\s*\n([\s\S]*?)``` ``: after the literal label the greedy
`\s*\n` runs to the last newline of the following whitespace run, and the
interior runs lazily to the first closing fence. A label occurrence not
followed by a newline in its whitespace run cannot match, and the search
resumes after it. Returns (text before the match, interior, text after). -/
def findCodeBlockSpan : Nat → List Char → Option (List Char × List Char × List Char)
  | 0, _ => none
  | fuel + 1, cs =>
    match findSub ("```json:toolCall".toList) cs with
    | none => none
    | some i =>
      let pre := cs.take i
      let rest := cs.drop (i + 16)
      let wsRun := rest.takeWhile wsJs
      let retry : Option (List Char × List Char × List Char) :=
        match findCodeBlockSpan fuel (cs.drop (i + 1)) with
        | none => none
        | some (pre2, interior, after) => some (cs.take (i + 1) ++ pre2, interior, after)
      match lastIdxOf '\n' wsRun with
      | none => retry
      | some p =>
        let body := rest.drop (p + 1)
        match findSub ("```".toList) body with
        | none => retry
        | some j => some (pre, body.take j, body.drop (j + 3))

/-- All code-block matches, leftmost-first. -/
def codeBlockSpansF (fuel : Nat) (cs : List Char) : List (List Char × List Char) × List Char :=
  match fuel with
  | 0 => ([], cs)
  | fuel + 1 =>
    match findCodeBlockSpan (cs.length + 1) cs with
    | none => ([], cs)
    | some (pre, interior, after) =>
      let (ps, tr) := codeBlockSpansF fuel after
      ((pre, interior) :: ps, tr)

/-- `parseCodeBlockToolCalls`: each block's trimmed interior is parsed as
JSON and pushed without a name check (`parsed.name` may be absent); a parse
failure, or the thrown access on a `null` payload, skips the block; when at
least one call was found the text loses every matched block and is
trimmed. -/
def parseCodeBlockToolCalls (text : String) : ToolCallParseResult :=
  let cs := text.toList
  let (spans, trailing) := codeBlockSpansF (cs.length + 1) cs
  let parsedCalls := spans.filterMap (fun sp =>
    match jsonParse (String.mk (trimChars sp.2)) with
    | none => none
    | some .null => none
    | some j =>
      some (⟨j.getField "name",
        jsOr (j.getField "arguments") (jsOr (j.getField "parameters") (.obj []))⟩ : ParsedToolCall))
  let toolCalls := assignIds 0 parsedCalls
  let content := if toolCalls.isEmpty then text
    else trimStr (String.mk ((spans.map Prod.fst).flatten ++ trailing))
  ⟨content, toolCalls⟩

/-- Backtracking combinator for a lazy `[\s\S]*?`: try the continuation at
the current position first, then after consuming one more character, in the
preference order of the JavaScript engine. -/
def lazyScan (k : List Char → Option (List Char)) : List Char → Option (List Char)
  | [] => k []
  | c :: t =>
    match k (c :: t) with
    | some r => some r
    | none => lazyScan k t

/-- Backtracking combinator for a greedy `\s*`: try the continuation after
the longest whitespace run first, then after shorter ones. -/
def wsStar (k : List Char → Option (List Char)) : List Char → Option (List Char)
  | [] => k []
  | c :: t =>
    if wsJs c then
      match wsStar k t with
      | some r => some r
      | none => k (c :: t)
    else k (c :: t)

/-- A literal that must match here, then the continuation. -/
def litThen (pat : List Char) (k : List Char → Option (List Char)) (cs : List Char) : Option (List Char) :=
  if pat.isPrefixOf cs then k (cs.drop pat.length) else none

/-- Backtracking combinator for a lazy `[p]+?`: one mandatory class
character, then the continuation as early as possible. -/
def onePlusLazyAux (p : Char → Bool) (k : List Char → Option (List Char)) : List Char → Option (List Char)
  | [] => k []
  | c :: t =>
    match k (c :: t) with
    | some r => some r
    | none => if p c then onePlusLazyAux p k t else none

/-- `[p]+?` followed by the continuation. -/
def onePlusLazy (p : Char → Bool) (k : List Char → Option (List Char)) : List Char → Option (List Char)
  | [] => none
  | c :: t => if p c then onePlusLazyAux p k t else none

/-- Stages of the generic fallback pattern
`\{[\s\S]*?"name"\s*:\s*"[^"]+?"[\s\S]*?(?:"arguments"|"parameters")\s*:\s*\{[\s\S]*?\}\s*\}`,
assembled back to front; each returns the unconsumed suffix on success. -/
def gStage7 : List Char → Option (List Char) := wsStar (litThen ['\x7d'] some)

/-- `[\s\S]*?\}` then the tail of the pattern. -/
def gStage6 : List Char → Option (List Char) := lazyScan (litThen ['\x7d'] gStage7)

/-- `\s*:\s*\{` then the tail. -/
def gStage5 : List Char → Option (List Char) :=
  wsStar (litThen [':'] (wsStar (litThen ['\x7b'] gStage6)))

/-- `(?:"arguments"|"parameters")` then the tail. -/
def gStage4 (cs : List Char) : Option (List Char) :=
  match litThen ("\"arguments\"".toList) gStage5 cs with
  | some r => some r
  | none => litThen ("\"parameters\"".toList) gStage5 cs

/-- `"[^"]+?"` (the quoted name value) then `[\s\S]*?` then the tail. -/
def gStage3 : List Char → Option (List Char) :=
  onePlusLazy (fun c => c ≠ '"') (litThen ['"'] (lazyScan gStage4))

/-- `\s*:\s*"` after the name key, then the tail. -/
def gStage2 : List Char → Option (List Char) :=
  wsStar (litThen [':'] (wsStar (litThen ['"'] gStage3)))

/-- `[\s\S]*?"name"` after the opening brace, then the tail. -/
def gStage1 : List Char → Option (List Char) :=
  lazyScan (litThen ("\"name\"".toList) gStage2)

/-- Length of the generic-pattern match starting at the head of `cs`, when
there is one. -/
def matchGenericAt (cs : List Char) : Option Nat :=
  match cs with
  | '\x7b' :: t => (gStage1 t).map (fun rem => cs.length - rem.length)
  | _ => none

/-- All matches of the generic pattern, leftmost-first, continuing after
each match as the global `exec` loop does. -/
def genericMatches : Nat → List Char → List (List Char)
  | 0, _ => []
  | fuel + 1, cs =>
    match cs with
    | [] => []
    | c :: t =>
      match matchGenericAt (c :: t) with
      | some len => (c :: t).take len :: genericMatches fuel ((c :: t).drop len)
      | none => genericMatches fuel t

/-- Delete the first occurrence of `pat`, as the string form of
`String.prototype.replace` with an empty replacement. -/
def removeFirstSub (cs pat : List Char) : List Char :=
  match findSub pat cs with
  | none => cs
  | some i => cs.take i ++ cs.drop (i + pat.length)

/-- `parseGenericToolCalls`: every pattern match that parses as JSON with a
truthy `name` and truthy `arguments`-or-`parameters` becomes a call (a
thrown access on a `null` payload skips that match); when at least one call
was found, each matched substring is deleted (first occurrence) from the
content, trimming after each deletion. -/
def parseGenericToolCalls (text : String) : ToolCallParseResult :=
  let cs := text.toList
  let ms := genericMatches (cs.length + 1) cs
  let parsedCalls := ms.filterMap (fun m =>
    match jsonParse (String.mk m) with
    | none => none
    | some .null => none
    | some j =>
      if (j.getField "name").truthy && (jsOr (j.getField "arguments") (j.getField "parameters")).truthy then
        some (⟨j.getField "name",
          jsOr (j.getField "arguments") (jsOr (j.getField "parameters") (.obj []))⟩ : ParsedToolCall)
      else none)
  let toolCalls := assignIds 0 parsedCalls
  let content := if toolCalls.isEmpty then text
    else String.mk (ms.foldl (fun acc m => trimChars (removeFirstSub acc m)) cs)
  ⟨content, toolCalls⟩

/-- The per-element loop of the Mistral-style array case: an element with a
truthy `name` is pushed, a `null` element throws (the loop stops, earlier
pushes survive), anything else is skipped. -/
def mistralItems : List Json → List ParsedToolCall
  | [] => []
  | j :: t =>
    match j with
    | .null => []
    | .undefined => []
    | _ =>
      if (j.getField "name").truthy then
        ⟨j.getField "name", jsOr (j.getField "arguments") (jsOr (j.getField "parameters") (.obj []))⟩
          :: mistralItems t
      else mistralItems t

/-- `parseMistralStyleToolCalls`: split the text at the first occurrence of
the marker; the part before it (trimmed) is the content, the part after it
(trimmed) is parsed as one JSON payload — a named object yields one call, an
array yields one call per named element — and a parse failure yields no
calls while keeping the truncated content. -/
def parseMistralStyleToolCalls (text marker : String) : ToolCallParseResult :=
  match findSub marker.toList text.toList with
  | none => ⟨text, []⟩
  | some i =>
    let cs := text.toList
    let content := trimStr (String.mk (cs.take i))
    let callText := String.mk (trimChars (cs.drop (i + marker.length)))
    let parsedCalls :=
      match jsonParse callText with
      | none => []
      | some .null => []
      | some (.arr items) => mistralItems items
      | some j =>
        if (j.getField "name").truthy then
          [⟨j.getField "name", jsOr (j.getField "arguments") (jsOr (j.getField "parameters") (.obj []))⟩]
        else []
    ⟨content, assignIds 0 parsedCalls⟩

/-- `tool_call_format` from the runtime's chat-template metadata. -/
structure ToolCallFormat where
  call_start : Option String := none
  call_end : Option String := none
  tool_parser_type : Option String := none
deriving Repr

/-- A `special_tokens` entry: a start/end pair (an object with a `start`
property) or a single marker token (an object with a `text` property). -/
inductive SpecialTokenVal where
  | pair (startText endText : String)
  | single (text : String)
deriving Repr

/-- The slice of `MlxRuntimeInfo` the parser consults:
`features.chat_template.tool_call_format` (the optional chain collapsed to
one optional field) and `special_tokens`. -/
structure MlxRuntimeInfo where
  tool_call_format : Option ToolCallFormat := none
  special_tokens : List (String × SpecialTokenVal) := []
deriving Repr

/-- Lookup of a `special_tokens` key. -/
def lookupToken (tokens : List (String × SpecialTokenVal)) (k : String) : Option SpecialTokenVal :=
  match tokens with
  | [] => none
  | (k2, v) :: t => if k2 = k then some v else lookupToken t k

/-- `TOOL_CALL_TOKEN_KEYS`. -/
def TOOL_CALL_TOKEN_KEYS : List String :=
  ["tool_call", "tool_call_explicit", "tool_call_xml",
   "tool_calls_section", "function_call_tags",
   "longcat_tool_call", "minimax_tool_call"]

/-- `KNOWN_TOOL_PARSER_DELIMITERS`. -/
def KNOWN_TOOL_PARSER_DELIMITERS : List (String × String × String) :=
  [("json_tools", "<tool_call>", "</tool_call>"),
   ("pythonic", "<|tool_call_start|>", "<|tool_call_end|>"),
   ("function_gemma", "<start_function_call>", "<end_function_call>"),
   ("mistral", "[TOOL_CALLS]", ""),
   ("kimi_k2", "<|tool_calls_section_begin|>", "<|tool_calls_section_end|>"),
   ("longcat", "<longcat_tool_call>", "</longcat_tool_call>"),
   ("glm47", "<tool_call>", "</tool_call>"),
   ("qwen3_coder", "<tool_call>", "</tool_call>"),
   ("minimax_m2", "<minimax:tool_call>", "</minimax:tool_call>")]

/-- Delimiter pair for a known parser-format identifier. -/
def lookupParserType (pt : String) : Option (String × String) :=
  (KNOWN_TOOL_PARSER_DELIMITERS.find? (fun e => e.1 = pt)).map (·.2)

/-- A strategy result counts only when it found at least one call. -/
def guardNonempty (r : ToolCallParseResult) : Option ToolCallParseResult :=
  if r.toolCalls.isEmpty then none else some r

/-- Fall through to the next strategy when the previous ones yielded
nothing. -/
def orElseR (o : Option ToolCallParseResult) (k : Unit → ToolCallParseResult) : ToolCallParseResult :=
  match o with
  | some r => r
  | none => k ()

/-- Strategy 1 precondition: template-declared delimiters, both truthy. -/
def fmtDelims : Option ToolCallFormat → Option (String × String)
  | some f =>
    match f.call_start, f.call_end with
    | some s, some e => if s ≠ "" && e ≠ "" then some (s, e) else none
    | _, _ => none
  | none => none

/-- Strategy 1.5 precondition: a truthy `tool_parser_type` resolving in the
known table to a pair with a truthy end delimiter. -/
def fmtKnownDelims : Option ToolCallFormat → Option (String × String)
  | some f =>
    match f.tool_parser_type with
    | some pt =>
      if pt ≠ "" then
        match lookupParserType pt with
        | some (s, e) => if e ≠ "" then some (s, e) else none
        | none => none
      else none
    | none => none
  | none => none

/-- Strategy 2: the first special-token key naming a start/end pair whose
delimiter scan finds at least one call wins; a pair that finds nothing lets
the scan continue with the next key. -/
def trySpecialTokenKeys (text : String) (tokens : List (String × SpecialTokenVal)) : List String → Option ToolCallParseResult
  | [] => none
  | k :: rest =>
    match lookupToken tokens k with
    | some (.pair s e) =>
      match guardNonempty (parseWithDelimiters text s e) with
      | some r => some r
      | none => trySpecialTokenKeys text tokens rest
    | _ => trySpecialTokenKeys text tokens rest

/-- `parseToolCalls`: the detection cascade of tool-call-parser.ts, each
strategy kept only when it yields at least one call, the generic JSON scan
as the final fallback. -/
def parseToolCalls (text : String) (runtimeInfo : Option MlxRuntimeInfo) : ToolCallParseResult :=
  orElseR ((fmtDelims (runtimeInfo.bind (·.tool_call_format))).bind fun se =>
    guardNonempty (parseWithDelimiters text se.1 se.2)) fun _ =>
  orElseR ((fmtKnownDelims (runtimeInfo.bind (·.tool_call_format))).bind fun se =>
    guardNonempty (parseWithDelimiters text se.1 se.2)) fun _ =>
  orElseR (trySpecialTokenKeys text ((runtimeInfo.map (·.special_tokens)).getD []) TOOL_CALL_TOKEN_KEYS) fun _ =>
  orElseR (match lookupToken ((runtimeInfo.map (·.special_tokens)).getD []) "tool_calls_marker" with
    | some (.single m) => guardNonempty (parseMistralStyleToolCalls text m)
    | _ => none) fun _ =>
  orElseR (guardNonempty (parseCodeBlockToolCalls text)) fun _ =>
  parseGenericToolCalls text

/-- `QueryResult.finishReason`. -/
inductive FinishReason where
  | stop
  | length
  | error
  | tool_calls
deriving Repr, DecidableEq

/-- The `function` payload of the driver-level `ToolCall` of
`packages/driver/src/types.ts` (lines 53-63): the name and the arguments
as a JSON *string*. -/
structure ToolFunctionCall where
  name : String
  arguments : String
deriving Repr, DecidableEq

/-- The driver-level `ToolCall` (`{id, type: 'function', function: {...}}`);
the `function` field is spelled `fn` because `function` is reserved in
Lean. -/
structure WireToolCall where
  id : String
  type : String
  fn : ToolFunctionCall
deriving Repr, DecidableEq

/-- The slice of `QueryResult` the tool-call claims concern: `content`,
`toolCalls` and `finishReason` (usage accounting and structured output are
not modelled). -/
structure QueryResult where
  content : String
  toolCalls : Option (List WireToolCall)
  finishReason : FinishReason
deriving Repr, DecidableEq

/-- The stream events of the Anthropic driver's `processStream` loop that
affect the modelled state. -/
inductive AnthropicEvent where
  | textDelta (text : String)
  | toolUseStart (index : Nat) (id name : String)
  | inputJsonDelta (index : Nat) (partialJson : String)
  | messageStart (inputTokens : Option Nat)
  | messageDelta (stopReason : Option String) (outputTokens : Option Nat)

/-- One entry of `toolCallDeltas`. -/
structure ToolCallDelta where
  id : String
  name : String
  arguments : String
deriving Repr, DecidableEq

/-- The driver's accumulated stream state (the `Map` keeps insertion order,
as the JavaScript `Map` does). -/
structure AnthropicStreamState where
  fullContent : String := ""
  inputTokens : Nat := 0
  outputTokens : Nat := 0
  finishReason : FinishReason := .stop
  toolCallDeltas : List (Nat × ToolCallDelta) := []
deriving Repr

/-- `Map.prototype.set`: an existing key keeps its position and takes the
new value, a new key is appended. -/
def mapSet (k : Nat) (v : ToolCallDelta) : List (Nat × ToolCallDelta) → List (Nat × ToolCallDelta)
  | [] => [(k, v)]
  | (k2, w) :: t => if k2 = k then (k, v) :: t else (k2, w) :: mapSet k v t

/-- `Map.prototype.get`. -/
def mapGet (k : Nat) : List (Nat × ToolCallDelta) → Option ToolCallDelta
  | [] => none
  | (k2, d) :: t => if k2 = k then some d else mapGet k t

/-- The `input_json_delta` branch: append the fragment to the entry's
buffer when the index is registered, otherwise drop the fragment. -/
def mapAppendArgs (k : Nat) (s : String) : List (Nat × ToolCallDelta) → List (Nat × ToolCallDelta)
  | [] => []
  | (k2, d) :: t =>
    if k2 = k then (k2, { d with arguments := d.arguments ++ s }) :: t
    else (k2, d) :: mapAppendArgs k s t

/-- One iteration of the Anthropic driver's `processStream` loop. -/
def stepAnthropicEvent (st : AnthropicStreamState) : AnthropicEvent → AnthropicStreamState
  | .textDelta s => { st with fullContent := st.fullContent ++ s }
  | .toolUseStart i id name => { st with toolCallDeltas := mapSet i ⟨id, name, ""⟩ st.toolCallDeltas }
  | .inputJsonDelta i s => { st with toolCallDeltas := mapAppendArgs i s st.toolCallDeltas }
  | .messageStart inTok =>
    match inTok with
    | some n => { st with inputTokens := n }
    | none => st
  | .messageDelta stopReason outTok =>
    let st1 := match outTok with
      | some n => { st with outputTokens := n }
      | none => st
    match stopReason with
    | none => st1
    | some r =>
      { st1 with finishReason :=
          if r = "tool_use" then .tool_calls
          else if r = "max_tokens" then .length
          else .stop }

/-- The whole `processStream` loop over a drained stream. -/
def processAnthropicStream (events : List AnthropicEvent) : AnthropicStreamState :=
  events.foldl stepAnthropicEvent {}

/-- The Anthropic `resultPromise` body: the accumulated entries, in
insertion order, become the `toolCalls` of the final `QueryResult`, each
carrying its buffered argument string unchanged. -/
def anthropicBuildResult (st : AnthropicStreamState) : QueryResult :=
  let toolCalls := if st.toolCallDeltas.isEmpty then none
    else some (st.toolCallDeltas.map (fun e => ⟨e.2.id, "function", ⟨e.2.name, e.2.arguments⟩⟩))
  ⟨st.fullContent, toolCalls, st.finishReason⟩

/-- Stream processing followed by finalization. -/
def anthropicStreamResult (events : List AnthropicEvent) : QueryResult :=
  anthropicBuildResult (processAnthropicStream events)

/-- `AnthropicDriver.query` awaits `streamQuery` and its result promise with
no try/catch, so a transport or stream failure (the `Except.error` side of
the drained transport) propagates to the caller. -/
def anthropicQuery (transport : Except String (List AnthropicEvent)) : Except String QueryResult :=
  transport.map anthropicStreamResult

/-- A `functionCall` fragment of a GoogleGenAI response part. -/
structure FunctionCallPart where
  id : Option String := none
  name : Option String := none
  args : Option Json := none
deriving Repr

/-- A GoogleGenAI response `Part` (only the fields the driver reads). -/
structure GPart where
  functionCall : Option FunctionCallPart := none
  text : Option String := none
deriving Repr

/-- `GoogleGenAIDriver.extractToolCalls`: every `functionCall` part becomes
a wire tool call; a missing or empty provider id is replaced by
`call_<position>` counted within this one extraction; the structured `args`
payload (`{}` when nullish) is `JSON.stringify`ed into the `arguments`
string. -/
def extractToolCalls (parts : Option (List GPart)) : List WireToolCall :=
  match parts with
  | none => []
  | some ps =>
    ps.foldl (fun acc p =>
      match p.functionCall with
      | none => acc
      | some fc =>
        let id := match fc.id with
          | some s => if s = "" then callId acc.length else s
          | none => callId acc.length
        let name := (fc.name).getD ""
        let args := match fc.args with
          | none => Json.obj []
          | some .null => Json.obj []
          | some j => j
        acc ++ [⟨id, "function", ⟨name, jsonStringify args⟩⟩]) []

/-- The `accumulatedToolCalls` loop of `GoogleGenAIDriver.streamQuery`:
each chunk's parts go through a fresh `extractToolCalls` call and the
results are appended. -/
def googleStreamToolCalls (chunks : List (Option (List GPart))) : List WireToolCall :=
  chunks.foldl (fun acc parts => acc ++ extractToolCalls parts) []

/-- `finishReasonMap` of the GoogleGenAI driver. -/
def googleFinishReasonMap : List (String × FinishReason) :=
  [("FINISH_REASON_UNSPECIFIED", .error), ("STOP", .stop), ("MAX_TOKENS", .length),
   ("SAFETY", .stop), ("RECITATION", .stop), ("LANGUAGE", .error), ("OTHER", .error),
   ("BLOCKLIST", .error), ("PROHIBITED_CONTENT", .error), ("MALFORMED_FUNCTION_CALL", .error),
   ("error", .error)]

/-- `finishReasonMap[candidate?.finishReason || 'error'] || 'error'`. -/
def mapGoogleFinishReason (r : Option String) : FinishReason :=
  let key := match r with
    | some s => if s = "" then "error" else s
    | none => "error"
  ((googleFinishReasonMap.find? (fun e => e.1 = key)).map (·.2)).getD .error

/-- The slice of a GoogleGenAI `generateContent` response the driver reads:
the `text` convenience property (`none` models the getter throwing on a
tool-call-only response), the first candidate's parts, and its finish
reason. -/
structure GenerateContentResponse where
  text : Option String := none
  parts : Option (List GPart) := none
  finishReason : Option String := none
deriving Repr

/-- The successful tail of `GoogleGenAIDriver.query`: extract content and
tool calls, map the finish reason, and override it with `tool_calls` when
any call was found. -/
def googleBuildResult (r : GenerateContentResponse) : QueryResult :=
  let content := (r.text).getD ""
  let toolCalls := extractToolCalls r.parts
  let fr := if toolCalls.isEmpty then mapGoogleFinishReason r.finishReason else .tool_calls
  ⟨content, if toolCalls.isEmpty then none else some toolCalls, fr⟩

/-- `GoogleGenAIDriver.query`: the whole body sits in a try/catch whose
catch returns `{content: '', finishReason: 'error'}`, so a transport or API
failure never escapes as an exception. -/
def googleQuery (transport : Except String GenerateContentResponse) : QueryResult :=
  match transport with
  | .error _ => ⟨"", none, .error⟩
  | .ok r => googleBuildResult r

/-- The driver-level `ChatMessage` union (`StandardChatMessage`,
`AssistantToolCallMessage`, `ToolResultMessage`), discriminated exactly as
the `hasToolCalls` / `isToolResult` guards do. -/
inductive ChatMessage where
  | standard (role : String) (content : String)
  | assistantToolCalls (content : String) (toolCalls : List WireToolCall)
  | toolResult (content : String) (toolCallId : String) (name : Option String)

/-- An outbound `functionResponse` payload. -/
structure FunctionResponse where
  name : String
  response : Json
deriving Repr

/-- An outbound GoogleGenAI content part. -/
inductive GSendPart where
  | text (t : String)
  | functionCall (name : String) (args : Json)
  | functionResponse (fr : FunctionResponse)
deriving Repr

/-- `JSON.parse(tc.function.arguments)` over the replayed calls of an
assistant message; a failing parse throws out of the conversion. -/
def parseReplayedCalls : List WireToolCall → Option (List GSendPart)
  | [] => some []
  | tc :: t =>
    match jsonParse tc.fn.arguments with
    | none => none
    | some j => (parseReplayedCalls t).map (GSendPart.functionCall tc.fn.name j :: ·)

/-- An outbound content message. -/
structure GContent where
  role : String
  parts : List GSendPart
deriving Repr

/-- `GoogleGenAIDriver.chatMessageToContent` (lines 183-217): a tool-result
message becomes `{role: 'user', parts: [{functionResponse: {name, response:
JSON.parse(content)}}]}` — the parsed value is used as the `response` with
no inspection of its shape; a content string that is not valid JSON makes
the conversion throw (`Except.error`). -/
def chatMessageToContent : ChatMessage → Except Unit GContent
  | .assistantToolCalls content tcs =>
    match parseReplayedCalls tcs with
    | none => .error ()
    | some callParts =>
      .ok ⟨"model", (if content ≠ "" then [GSendPart.text content] else []) ++ callParts⟩
  | .toolResult content id nameOpt =>
    match jsonParse content with
    | none => .error ()
    | some j =>
      let n := match nameOpt with
        | some s => if s = "" then id else s
        | none => id
      .ok ⟨"user", [.functionResponse ⟨n, j⟩]⟩
  | .standard role content =>
    .ok ⟨if role = "assistant" then "model" else "user", [.text content]⟩

/-- Runtime hints carrying the `tool_call` special-token pair
`<tool_call>` / `</tool_call>` (the shape the mlx runtime reports for
json-tag models, and the one the parser's test suite uses). -/
def riTC : Option MlxRuntimeInfo :=
  some { special_tokens := [("tool_call", SpecialTokenVal.pair "<tool_call>" "</tool_call>")] }

/-- A model output carrying one special-token-delimited call (name `a`) and
one fenced-code-block call (name `b`). -/
def mixedFormatsText : String :=
  "<tool_call>\x7b\"name\":\"a\",\"arguments\":\x7b\x7d\x7d</tool_call>\n```json:toolCall\n\x7b\"name\":\"b\",\"arguments\":\x7b\x7d\x7d\n```"

/-- A model output with one parseable span and one span whose interior
fails every parse attempt. -/
def goodBadSpansText : String :=
  "A<tool_call>\x7b\"name\":\"a\",\"arguments\":\x7b\x7d\x7d</tool_call>B<tool_call>garbage</tool_call>C"

/-- A model output with one special-token-delimited call followed by a bare
generic-format JSON call outside any delimiter. -/
def residueText : String :=
  "<tool_call>\x7b\"name\":\"a\",\"arguments\":\x7b\x7d\x7d</tool_call> \x7b\"name\":\"b\",\"arguments\":\x7b\"x\":1\x7d\x7d"

/-- Assigning ids preserves the number of calls. -/
theorem assignIds_length (l : List ParsedToolCall) (n : Nat) :
    (assignIds n l).length = l.length := by
  induction l generalizing n with
  | nil => rfl
  | cons c t ih => simp [assignIds, ih]

/-- The call at position `i` of an id-assignment starting at `n` carries the
id `call_<n+i>`. -/
theorem assignIds_get (l : List ParsedToolCall) (n i : Nat)
    (h : i < (assignIds n l).length) :
    ((assignIds n l).get ⟨i, h⟩).id = callId (n + i) := by
  induction l generalizing n i with
  | nil => simp [assignIds] at h
  | cons c t ih =>
    cases i with
    | zero => simp [assignIds]
    | succ j =>
      have h2 : j < (assignIds (n + 1) t).length := by
        simpa [assignIds] using Nat.lt_of_succ_lt_succ (by simpa [assignIds] using h)
      have := ih (n + 1) j h2
      simpa [assignIds, Nat.add_assoc, Nat.add_comm 1 j] using this

/-- A strategy result that survives the guard is the unguarded result and
found at least one call. -/
theorem guardNonempty_eq_some {r r2 : ToolCallParseResult}
    (h : guardNonempty r = some r2) : r2 = r ∧ r.toolCalls ≠ [] := by
  unfold guardNonempty at h
  by_cases he : r.toolCalls.isEmpty
  · simp [he] at h
  · refine ⟨by simp [he] at h; exact h.symm, ?_⟩
    intro hnil
    simp [hnil] at he

/-- A special-token pass that returns a result found at least one call. -/
theorem trySpecialTokenKeys_some {text : String} {tokens : List (String × SpecialTokenVal)}
    {keys : List String} {r : ToolCallParseResult}
    (h : trySpecialTokenKeys text tokens keys = some r) : r.toolCalls ≠ [] := by
  induction keys with
  | nil => simp [trySpecialTokenKeys] at h
  | cons k rest ih =>
    unfold trySpecialTokenKeys at h
    cases hv : lookupToken tokens k with
    | none => simp only [hv] at h; exact ih h
    | some v =>
      cases v with
      | single t => simp only [hv] at h; exact ih h
      | pair s e =>
        simp only [hv] at h
        cases hg : guardNonempty (parseWithDelimiters text s e) with
        | none => simp only [hg] at h; exact ih h
        | some r2 =>
          simp only [hg] at h
          cases h
          obtain ⟨he, hne⟩ := guardNonempty_eq_some hg
          rw [he]
          exact hne

/-- A generic-fallback pass finding no calls returns the text unchanged. -/
theorem parseGenericToolCalls_empty {text : String}
    (h : (parseGenericToolCalls text).toolCalls = []) :
    parseGenericToolCalls text = ⟨text, []⟩ := by
  unfold parseGenericToolCalls at h ⊢
  simp only at h ⊢
  rw [h, if_pos List.isEmpty_nil]

/-- When the earlier strategy cannot yield a result, the cascade takes the
later one; when it yields, its result has at least one call, so an empty
overall result means the earlier strategy did not fire. -/
theorem orElseR_empty {o : Option ToolCallParseResult} {k : Unit → ToolCallParseResult}
    (ho : ∀ r, o = some r → r.toolCalls ≠ [])
    (h : (orElseR o k).toolCalls = []) : orElseR o k = k () ∧ (k ()).toolCalls = [] := by
  cases o with
  | none => exact ⟨rfl, h⟩
  | some r =>
    simp only [orElseR] at h
    exact absurd h (ho r rfl)

/-- A delimiter strategy guarded by its precondition only returns results
with at least one call. -/
theorem bindGuard_some (text : String) (x : Option (String × String))
    (r : ToolCallParseResult)
    (hr : (x.bind fun se => guardNonempty (parseWithDelimiters text se.1 se.2)) = some r) :
    r.toolCalls ≠ [] := by
  obtain ⟨se, _, hg⟩ := Option.bind_eq_some.mp hr
  obtain ⟨he, hne⟩ := guardNonempty_eq_some hg
  rw [he]
  exact hne

/-- A parse of a text in which no strategy finds a call returns the text
unchanged with no calls: the cascade falls through to the generic fallback,
and that fallback leaves an unmatched text alone. -/
theorem parseToolCalls_empty (text : String) (ri : Option MlxRuntimeInfo)
    (h : (parseToolCalls text ri).toolCalls = []) :
    parseToolCalls text ri = ⟨text, []⟩ := by
  unfold parseToolCalls at h ⊢
  obtain ⟨e1, h1⟩ := orElseR_empty (bindGuard_some text _) h
  rw [e1]
  obtain ⟨e2, h2⟩ := orElseR_empty (bindGuard_some text _) h1
  rw [e2]
  obtain ⟨e3, h3⟩ := orElseR_empty (fun r hr => trySpecialTokenKeys_some hr) h2
  rw [e3]
  obtain ⟨e4, h4⟩ := orElseR_empty (fun r hr => by
    cases hv : lookupToken ((ri.map (·.special_tokens)).getD []) "tool_calls_marker" with
    | none =>
      simp only [hv] at hr
      exact Option.noConfusion hr
    | some v =>
      cases v with
      | pair a b =>
        simp only [hv] at hr
        exact Option.noConfusion hr
      | single m =>
        simp only [hv] at hr
        obtain ⟨he, hne⟩ := guardNonempty_eq_some hr
        rw [he]
        exact hne) h3
  rw [e4]
  obtain ⟨e5, h5⟩ := orElseR_empty (fun r hr => by
    obtain ⟨he, hne⟩ := guardNonempty_eq_some hr
    rw [he]
    exact hne) h4
  rw [e5]
  exact parseGenericToolCalls_empty h5

/-- When the template-declared strategies do not apply and the first
special-token key resolves to a delimiter pair whose scan finds at least one
call, the cascade returns exactly that scan's result. -/
theorem cascade_special_token_first (text : String) (ri : Option MlxRuntimeInfo) (s e : String)
    (h1 : fmtDelims (ri.bind (·.tool_call_format)) = none)
    (h2 : fmtKnownDelims (ri.bind (·.tool_call_format)) = none)
    (h3 : lookupToken ((ri.map (·.special_tokens)).getD []) "tool_call" = some (.pair s e))
    (h4 : (parseWithDelimiters text s e).toolCalls ≠ []) :
    parseToolCalls text ri = parseWithDelimiters text s e := by
  have hg : guardNonempty (parseWithDelimiters text s e) = some (parseWithDelimiters text s e) := by
    unfold guardNonempty
    cases hc : (parseWithDelimiters text s e).toolCalls with
    | nil => exact absurd hc h4
    | cons a t => simp [hc]
  have ht : trySpecialTokenKeys text ((ri.map (·.special_tokens)).getD []) TOOL_CALL_TOKEN_KEYS
      = some (parseWithDelimiters text s e) := by
    unfold TOOL_CALL_TOKEN_KEYS trySpecialTokenKeys
    simp only [h3, hg]
  unfold parseToolCalls
  simp only [h1, h2, Option.none_bind, orElseR, ht]

/-- A delimiter pass that found at least one call returns the text with all
matched spans removed and trimmed — including the spans whose interiors
failed to parse, since removal is by the same span scan and does not look
at parse success. -/
theorem parseWithDelimiters_content_of_ne (text s e : String)
    (h : (parseWithDelimiters text s e).toolCalls ≠ []) :
    (parseWithDelimiters text s e).content
      = trimStr (String.mk (removeSpans s.toList e.toList text.toList)) := by
  have h2 : assignIds 0 (delimParsedCalls text s e) ≠ [] := h
  have hne : (assignIds 0 (delimParsedCalls text s e)).isEmpty = false := by
    cases hc : assignIds 0 (delimParsedCalls text s e) with
    | nil => exact absurd hc h2
    | cons a t => rfl
  show (if (assignIds 0 (delimParsedCalls text s e)).isEmpty then text
    else trimStr (String.mk (removeSpans s.toList e.toList text.toList))) = _
  rw [hne]
  simp

/-- Appending one event to a drained stream steps the accumulated state
once. -/
theorem processAnthropicStream_append (pre : List AnthropicEvent) (ev : AnthropicEvent) :
    processAnthropicStream (pre ++ [ev]) = stepAnthropicEvent (processAnthropicStream pre) ev := by
  unfold processAnthropicStream
  rw [List.foldl_append]
  rfl

/-- Appending an argument fragment at a registered index extends exactly
that entry's buffer; at an unregistered index nothing is stored. -/
theorem mapGet_mapAppendArgs (k : Nat) (s : String) (m : List (Nat × ToolCallDelta)) :
    mapGet k (mapAppendArgs k s m)
      = (mapGet k m).map (fun d => { d with arguments := d.arguments ++ s }) := by
  induction m with
  | nil => rfl
  | cons e t ih =>
    obtain ⟨k2, d⟩ := e
    by_cases hk : k2 = k
    · subst hk
      simp [mapAppendArgs, mapGet]
    · simp [mapAppendArgs, mapGet, hk, ih]

/-- C1 counterexample: the GoogleGenAI driver's `extractToolCalls`, applied
to a response part whose `functionCall` carries the structured arguments
`{location: "Tokyo"}`, emits a ToolCall whose `function.arguments` field is
the serialized JSON string of that mapping — a raw string, produced by
`JSON.stringify`, crosses into `QueryResult.toolCalls`; no adapter
deserialization happens, contradicting the claim that `arguments` is always
a parsed mapping by the time the ToolCall reaches the intermediate
boundary. -/
theorem C1_counterexample :
    extractToolCalls (some [⟨some ⟨none, some "get_weather",
        some (Json.obj [("location", Json.str "Tokyo")])⟩, none⟩])
      = [⟨"call_0", "function", ⟨"get_weather", "\x7b\"location\":\"Tokyo\"\x7d"⟩⟩]
    ∧ "\x7b\"location\":\"Tokyo\"\x7d" = jsonStringify (Json.obj [("location", Json.str "Tokyo")]) :=
  ⟨rfl, rfl⟩

/-- C1 (amended): only the local-runtime parser normalizes arguments into a
mapping, and only for payloads whose arguments field is an object or a
string that deserializes to an object: `normalizeJsonToolCall` copies an
object-valued `arguments` through unchanged, and parses a string-valued
`arguments` that decodes to an object into that object. (The provider
drivers of this codebase instead keep `function.arguments` as a serialized
JSON string, per the documented driver-level ToolCall type.) -/
theorem C1_amended_parser_normalization :
    (∀ (o : Json) (n : String) (kvs : List (String × Json)),
      o.getField "name" = Json.str n → n ≠ "" →
      o.getField "arguments" = Json.obj kvs →
      normalizeJsonToolCall o = .ok (some ⟨Json.str n, Json.obj kvs⟩))
    ∧ (∀ (o : Json) (n s : String) (kvs : List (String × Json)),
      o.getField "name" = Json.str n → n ≠ "" →
      o.getField "arguments" = Json.str s → s ≠ "" →
      jsonParse s = some (Json.obj kvs) →
      normalizeJsonToolCall o = .ok (some ⟨Json.str n, Json.obj kvs⟩)) := by
  constructor
  · intro o n kvs h1 hn h2
    cases o with
    | obj fields =>
      simp only [normalizeJsonToolCall, h1, h2]
      simp [Json.truthy, hn, jsOr, parseArgsField]
    | undefined => simp [Json.getField] at h1
    | null => simp [Json.getField] at h1
    | bool b => simp [Json.getField] at h1
    | num v => simp [Json.getField] at h1
    | str v => simp [Json.getField] at h1
    | arr l => simp [Json.getField] at h1
  · intro o n s kvs h1 hn h2 hs hp
    cases o with
    | obj fields =>
      simp only [normalizeJsonToolCall, h1, h2]
      simp [Json.truthy, hn, hs, jsOr, parseArgsField, hp]
    | undefined => simp [Json.getField] at h1
    | null => simp [Json.getField] at h1
    | bool b => simp [Json.getField] at h1
    | num v => simp [Json.getField] at h1
    | str v => simp [Json.getField] at h1
    | arr l => simp [Json.getField] at h1

/-- C1 witness: the amended theorem applied to the concrete payloads
`{"name": "f", "arguments": {"x": 1}}` (object copied through) and
`{"name": "f", "arguments": "{\"x\":1}"}` (string deserialized). -/
theorem C1_witness :
    normalizeJsonToolCall (Json.obj [("name", Json.str "f"), ("arguments", Json.obj [("x", Json.num 1)])])
      = .ok (some ⟨Json.str "f", Json.obj [("x", Json.num 1)]⟩)
    ∧ normalizeJsonToolCall (Json.obj [("name", Json.str "f"), ("arguments", Json.str "\x7b\"x\":1\x7d")])
      = .ok (some ⟨Json.str "f", Json.obj [("x", Json.num 1)]⟩) :=
  ⟨C1_amended_parser_normalization.1 _ "f" _ rfl (by decide) rfl,
   C1_amended_parser_normalization.2 _ "f" "\x7b\"x\":1\x7d" _ rfl (by decide) rfl (by decide) rfl⟩

/-- C2: the claim says a Gemini-style conversion of a `data` tool result
whose value is the bare string `"sunny"` yields the wrapped
`response: {output: "sunny"}`. The code (`chatMessageToContent`, the
`tool_result` branch) instead places `JSON.parse(content)` as the response
unchanged, so the bare string itself becomes the `response` — the
single-key wrapping the in-repo intermediate-format memo prescribes for the
structured channel (and that issue #106 tracks) is absent. -/
theorem C2_bare_string_response_unwrapped :
    chatMessageToContent (ChatMessage.toolResult "\"sunny\"" "x" (some "get_weather"))
      = .ok ⟨"user", [.functionResponse ⟨"get_weather", Json.str "sunny"⟩]⟩
    ∧ ∀ kvs, Json.str "sunny" ≠ Json.obj kvs :=
  ⟨rfl, fun _ h => Json.noConfusion h⟩

/-- C3 counterexample: a stream whose index-0 call accumulates the buffer
`{"loc` — not valid JSON by stream end — still finalizes into an ordinary
ToolCall carrying that raw buffer, alongside the valid index-1 call, with
no error of any kind; the claim's "parsed exactly once as JSON ... parse
failure is a hard error for that call" does not happen, because
finalization never parses. -/
theorem C3_counterexample :
    anthropicStreamResult
      [AnthropicEvent.toolUseStart 0 "toolu_1" "get_weather",
       AnthropicEvent.inputJsonDelta 0 "\x7b\"loc",
       AnthropicEvent.toolUseStart 1 "toolu_2" "get_time",
       AnthropicEvent.inputJsonDelta 1 "\x7b\"timezone\":\"JST\"\x7d",
       AnthropicEvent.messageDelta (some "tool_use") (some 20)]
      = ⟨"", some [⟨"toolu_1", "function", ⟨"get_weather", "\x7b\"loc"⟩⟩,
                   ⟨"toolu_2", "function", ⟨"get_time", "\x7b\"timezone\":\"JST\"\x7d"⟩⟩],
         FinishReason.tool_calls⟩
    ∧ jsonParse "\x7b\"loc" = none :=
  ⟨rfl, rfl⟩

/-- C3 (amended): argument fragments are accumulated by index — a fragment
for a registered index appends to exactly that entry's buffer, one for an
unregistered index is dropped — and at stream end each entry becomes a
ToolCall whose `function.arguments` is its buffered string verbatim; no
JSON parse happens at finalization, so no finalization parse failure can
arise and malformed buffers pass through. -/
theorem C3_amended_accumulate_and_finalize_raw :
    (∀ (pre : List AnthropicEvent) (k : Nat) (s : String),
      mapGet k (processAnthropicStream (pre ++ [AnthropicEvent.inputJsonDelta k s])).toolCallDeltas
        = (mapGet k (processAnthropicStream pre).toolCallDeltas).map
            (fun d => { d with arguments := d.arguments ++ s }))
    ∧ (∀ events : List AnthropicEvent,
      (processAnthropicStream events).toolCallDeltas ≠ [] →
      (anthropicStreamResult events).toolCalls
        = some ((processAnthropicStream events).toolCallDeltas.map
            (fun ent => ⟨ent.2.id, "function", ⟨ent.2.name, ent.2.arguments⟩⟩))) := by
  constructor
  · intro pre k s
    rw [processAnthropicStream_append]
    exact mapGet_mapAppendArgs k s _
  · intro events h
    unfold anthropicStreamResult anthropicBuildResult
    have hne : (processAnthropicStream events).toolCallDeltas.isEmpty = false := by
      cases hc : (processAnthropicStream events).toolCallDeltas with
      | nil => exact absurd hc h
      | cons a t => rfl
    simp [hne]

/-- C3 witness: the amended theorem at a concrete stream — the fragment
`ation":"Tokyo"}` lands in the registered index-0 buffer, and the finalized
call carries the concatenated buffer verbatim. -/
theorem C3_witness :
    mapGet 0 (processAnthropicStream
        ([AnthropicEvent.toolUseStart 0 "toolu_abc" "get_weather",
          AnthropicEvent.inputJsonDelta 0 "\x7b\"loc"]
          ++ [AnthropicEvent.inputJsonDelta 0 "ation\":\"Tokyo\"\x7d"])).toolCallDeltas
      = some ⟨"toolu_abc", "get_weather", "\x7b\"location\":\"Tokyo\"\x7d"⟩
    ∧ (processAnthropicStream [AnthropicEvent.toolUseStart 0 "toolu_abc" "get_weather"]).toolCallDeltas ≠ []
    ∧ (anthropicStreamResult [AnthropicEvent.toolUseStart 0 "toolu_abc" "get_weather"]).toolCalls
        = some [⟨"toolu_abc", "function", ⟨"get_weather", ""⟩⟩] := by
  have hds : (processAnthropicStream
      [AnthropicEvent.toolUseStart 0 "toolu_abc" "get_weather"]).toolCallDeltas
      = [(0, ToolCallDelta.mk "toolu_abc" "get_weather" "")] := rfl
  have hne : (processAnthropicStream
      [AnthropicEvent.toolUseStart 0 "toolu_abc" "get_weather"]).toolCallDeltas ≠ [] := by
    rw [hds]
    exact List.cons_ne_nil _ _
  refine ⟨?_, hne, ?_⟩
  · rw [C3_amended_accumulate_and_finalize_raw.1
      [AnthropicEvent.toolUseStart 0 "toolu_abc" "get_weather",
       AnthropicEvent.inputJsonDelta 0 "\x7b\"loc"] 0 "ation\":\"Tokyo\"\x7d"]
    rfl
  · exact (C3_amended_accumulate_and_finalize_raw.2
      [AnthropicEvent.toolUseStart 0 "toolu_abc" "get_weather"] hne).trans rfl

/-- C4: two Gemini stream chunks each carrying one id-less `functionCall`
are accumulated through a fresh `extractToolCalls` per chunk, so the
synthesized-position counter restarts at each chunk and both calls receive
the id `call_0` — duplicate ids within one response, contrary to the
documented uniqueness of the ToolCall id. -/
theorem C4_duplicate_stream_ids :
    (googleStreamToolCalls
      [some [⟨some ⟨none, some "get_weather",
          some (Json.obj [("location", Json.str "Tokyo")])⟩, none⟩],
       some [⟨some ⟨none, some "get_time",
          some (Json.obj [("timezone", Json.str "JST")])⟩, none⟩]]).map WireToolCall.id
      = ["call_0", "call_0"]
    ∧ ¬ (["call_0", "call_0"] : List String).Nodup :=
  ⟨rfl, by decide⟩

/-- C5 counterexample: a transport failure during the Anthropic driver's
`query` (which merely awaits `streamQuery` and the result promise, with no
try/catch) propagates to the caller as a rejection instead of an
error-result `QueryResult`, contradicting the claim that no adapter ever
throws past the synchronous query boundary. -/
theorem C5_counterexample :
    anthropicQuery (Except.error "ECONNRESET") = Except.error "ECONNRESET"
    ∧ ∀ r : QueryResult, anthropicQuery (Except.error "ECONNRESET") ≠ Except.ok r :=
  ⟨rfl, fun _ h => Except.noConfusion h⟩

/-- C5 (amended): the GoogleGenAI driver's `query` catches every failure
and returns `{content: '', finishReason: 'error'}`; the Anthropic driver's
`query` propagates the failure to its caller. -/
theorem C5_amended_per_driver :
    (∀ err : String, googleQuery (Except.error err) = ⟨"", none, FinishReason.error⟩)
    ∧ (∀ err : String, anthropicQuery (Except.error err) = Except.error err) :=
  ⟨fun _ => rfl, fun _ => rfl⟩

/-- C6: the scenario — the text
`Let me check.\n<tool_call>\n{"name":"get_weather","arguments":{"location":"Tokyo"}}\n</tool_call>`
parsed with the `<tool_call>`/`</tool_call>` special-token hints yields
content `Let me check.` and exactly one call
`{id: call_0, name: get_weather, arguments: {location: Tokyo}}`; and, in
general, a delimiter pass assigns the sequential ids `call_0, call_1, …` in
the order the spans (hence their start delimiters) occur in the text. -/
theorem C6_scenario_and_sequential_ids :
    parseToolCalls "Let me check.\n<tool_call>\n\x7b\"name\":\"get_weather\",\"arguments\":\x7b\"location\":\"Tokyo\"\x7d\x7d\n</tool_call>" riTC
      = ⟨"Let me check.", [⟨"call_0", Json.str "get_weather", Json.obj [("location", Json.str "Tokyo")]⟩]⟩
    ∧ ∀ (text s e : String) (i : Nat) (h : i < (parseWithDelimiters text s e).toolCalls.length),
        ((parseWithDelimiters text s e).toolCalls.get ⟨i, h⟩).id = callId i := by
  constructor
  · rfl
  · intro text s e i h
    simpa using assignIds_get (delimParsedCalls text s e) 0 i h

/-- C6 witness: the sequential-id clause of the theorem applied at a
concrete one-call parse. -/
theorem C6_witness :
    ∃ h : 0 < (parseWithDelimiters "<tool_call>\x7b\"name\":\"a\",\"arguments\":\x7b\x7d\x7d</tool_call>" "<tool_call>" "</tool_call>").toolCalls.length,
      ((parseWithDelimiters "<tool_call>\x7b\"name\":\"a\",\"arguments\":\x7b\x7d\x7d</tool_call>" "<tool_call>" "</tool_call>").toolCalls.get ⟨0, h⟩).id = callId 0 :=
  ⟨by decide, C6_scenario_and_sequential_ids.2 _ _ _ 0 (by decide)⟩

/-- C7: when neither template-declared strategy applies and the
`tool_call` special-token pair's delimiter scan finds at least one call,
`parseToolCalls` returns exactly that scan's result — later strategies
(code-block, generic) are never consulted and nothing is merged across
strategies. -/
theorem C7_cascade_priority (text : String) (ri : Option MlxRuntimeInfo) (s e : String)
    (h1 : fmtDelims (ri.bind (·.tool_call_format)) = none)
    (h2 : fmtKnownDelims (ri.bind (·.tool_call_format)) = none)
    (h3 : lookupToken ((ri.map (·.special_tokens)).getD []) "tool_call" = some (.pair s e))
    (h4 : (parseWithDelimiters text s e).toolCalls ≠ []) :
    parseToolCalls text ri = parseWithDelimiters text s e :=
  cascade_special_token_first text ri s e h1 h2 h3 h4

/-- C7 witness: a text containing both a special-token call (`a`) and a
fenced-code-block call (`b`): only `a` is returned, although the code-block
strategy alone would have found `b`. -/
theorem C7_witness :
    parseToolCalls mixedFormatsText riTC
      = parseWithDelimiters mixedFormatsText "<tool_call>" "</tool_call>"
    ∧ (parseToolCalls mixedFormatsText riTC).toolCalls = [⟨"call_0", Json.str "a", Json.obj []⟩]
    ∧ (parseCodeBlockToolCalls mixedFormatsText).toolCalls
        = [⟨"call_0", Json.str "b", Json.obj []⟩] := by
  have h4 : (parseWithDelimiters mixedFormatsText "<tool_call>" "</tool_call>").toolCalls ≠ [] := by
    rw [show (parseWithDelimiters mixedFormatsText "<tool_call>" "</tool_call>").toolCalls
        = [⟨"call_0", Json.str "a", Json.obj []⟩] from rfl]
    exact List.cons_ne_nil _ _
  exact ⟨C7_cascade_priority mixedFormatsText riTC "<tool_call>" "</tool_call>" rfl rfl rfl h4,
    rfl, rfl⟩

/-- C8 counterexample: a text whose only matched span has an interior
(`garbage`) failing all three parse attempts. The span is matched and the
interior fails, yet the returned content is the input unchanged — the
failed span is NOT removed, because the delimiter pass only rewrites the
content when it found at least one call, and here it found none, so the
cascade falls through to the generic fallback which leaves the text
alone. -/
theorem C8_counterexample :
    parseToolCalls "<tool_call>garbage</tool_call>" riTC = ⟨"<tool_call>garbage</tool_call>", []⟩
    ∧ (splitSpans "<tool_call>".toList "</tool_call>".toList "<tool_call>garbage</tool_call>".toList).1.length = 1
    ∧ parseToolCallContent "garbage" = none :=
  ⟨rfl, rfl, rfl⟩

/-- C8 (amended): a matched span whose interior fails all parse attempts
contributes no call and surfaces no error, and it is removed from the
returned content provided the winning delimiter pass found at least one
call in some other span — the content is then the text with every matched
span removed (parse success is not consulted for removal) and trimmed;
when every span fails, the pass yields nothing and the text is returned
unchanged by the fallback. -/
theorem C8_amended_removal (text : String) (ri : Option MlxRuntimeInfo) (s e : String)
    (h1 : fmtDelims (ri.bind (·.tool_call_format)) = none)
    (h2 : fmtKnownDelims (ri.bind (·.tool_call_format)) = none)
    (h3 : lookupToken ((ri.map (·.special_tokens)).getD []) "tool_call" = some (.pair s e))
    (h4 : (parseWithDelimiters text s e).toolCalls ≠ []) :
    (parseToolCalls text ri).content
      = trimStr (String.mk (removeSpans s.toList e.toList text.toList)) := by
  rw [cascade_special_token_first text ri s e h1 h2 h3 h4]
  exact parseWithDelimiters_content_of_ne text s e h4

/-- C8 witness: one parseable span and one failed span — the returned
content drops both spans. -/
theorem C8_witness :
    (parseToolCalls goodBadSpansText riTC).content = "ABC"
    ∧ parseToolCallContent "garbage" = none
    ∧ (parseToolCalls goodBadSpansText riTC).toolCalls.length = 1 := by
  have h4 : (parseWithDelimiters goodBadSpansText "<tool_call>" "</tool_call>").toolCalls ≠ [] := by
    rw [show (parseWithDelimiters goodBadSpansText "<tool_call>" "</tool_call>").toolCalls
        = [⟨"call_0", Json.str "a", Json.obj []⟩] from rfl]
    exact List.cons_ne_nil _ _
  exact ⟨(C8_amended_removal goodBadSpansText riTC "<tool_call>" "</tool_call>" rfl rfl rfl h4).trans rfl,
    rfl, by decide⟩

/-- C9 counterexample: stripping is not idempotent. On a text with one
special-token span and one bare generic JSON call, the first parse wins via
the special-token strategy (1 call) and strips only the span; the second
parse, applied to the stripped content, finds the leftover bare JSON via
the generic fallback — one additional call. -/
theorem C9_counterexample :
    (parseToolCalls residueText riTC).toolCalls.length = 1
    ∧ (parseToolCalls (parseToolCalls residueText riTC).content riTC).toolCalls.length = 1 :=
  ⟨by decide, by decide⟩

/-- C9 (amended): re-parsing is only guaranteed to add nothing when the
first parse found nothing: a parse with zero calls returns the text
unchanged, so a second application returns the identical result (a
fixpoint). When calls were found, the stripped content can retain residue
that a second parse detects through a lower-priority strategy. -/
theorem C9_amended_fixpoint (text : String) (ri : Option MlxRuntimeInfo)
    (h : (parseToolCalls text ri).toolCalls = []) :
    parseToolCalls text ri = ⟨text, []⟩
    ∧ parseToolCalls (parseToolCalls text ri).content ri = parseToolCalls text ri := by
  have h1 := parseToolCalls_empty text ri h
  refine ⟨h1, ?_⟩
  rw [h1]
  exact h1

/-- C9 witness: the fixpoint clause at a plain text with no tool-call
syntax. -/
theorem C9_witness :
    (parseToolCalls "Just a regular response." none).toolCalls = []
    ∧ parseToolCalls "Just a regular response." none = ⟨"Just a regular response.", []⟩
    ∧ parseToolCalls (parseToolCalls "Just a regular response." none).content none
        = parseToolCalls "Just a regular response." none :=
  ⟨rfl, (C9_amended_fixpoint "Just a regular response." none rfl).1,
    (C9_amended_fixpoint "Just a regular response." none rfl).2⟩

/-- C10: a span payload with a valid name whose `arguments` (or nested
`function.arguments`) field is a string that is not valid JSON still yields
a call with the empty arguments mapping `{}` — the call is neither dropped
nor does an error propagate; concretely,
`<tool_call>{"name":"f","arguments":"oops"}</tool_call>` produces
`{id: call_0, name: f, arguments: {}}`. -/
theorem C10_unparseable_arguments_string :
    (∀ (o : Json) (n s : String),
      o.getField "name" = Json.str n → n ≠ "" →
      o.getField "arguments" = Json.str s → s ≠ "" → jsonParse s = none →
      normalizeJsonToolCall o = .ok (some ⟨Json.str n, Json.obj []⟩))
    ∧ (∀ (fields ffields : List (String × Json)) (n s : String),
      (Json.obj fields).getField "name" = Json.undefined →
      (Json.obj fields).getField "function" = Json.obj ffields →
      (Json.obj ffields).getField "name" = Json.str n → n ≠ "" →
      (Json.obj ffields).getField "arguments" = Json.str s → s ≠ "" →
      jsonParse s = none →
      normalizeJsonToolCall (Json.obj fields) = .ok (some ⟨Json.str n, Json.obj []⟩))
    ∧ parseToolCalls "<tool_call>\x7b\"name\":\"f\",\"arguments\":\"oops\"\x7d</tool_call>" riTC
        = ⟨"", [⟨"call_0", Json.str "f", Json.obj []⟩]⟩ := by
  refine ⟨?_, ?_, rfl⟩
  · intro o n s h1 hn h2 hs hp
    cases o with
    | obj fields =>
      simp only [normalizeJsonToolCall, h1, h2]
      simp [Json.truthy, hn, hs, jsOr, parseArgsField, hp]
    | undefined => simp [Json.getField] at h1
    | null => simp [Json.getField] at h1
    | bool b => simp [Json.getField] at h1
    | num v => simp [Json.getField] at h1
    | str v => simp [Json.getField] at h1
    | arr l => simp [Json.getField] at h1
  · intro fields ffields n s h0 hf h1 hn h2 hs hp
    simp only [normalizeJsonToolCall, h0, hf, h1, h2]
    simp [Json.truthy, Json.isObjectLike, hn, hs, jsOr, parseArgsField, hp]

/-- C10 witness: the two general clauses at concrete payloads
`{"name":"f","arguments":"oops"}` and
`{"function":{"name":"f","arguments":"oops"}}`. -/
theorem C10_witness :
    normalizeJsonToolCall (Json.obj [("name", Json.str "f"), ("arguments", Json.str "oops")])
      = .ok (some ⟨Json.str "f", Json.obj []⟩)
    ∧ normalizeJsonToolCall (Json.obj [("function",
        Json.obj [("name", Json.str "f"), ("arguments", Json.str "oops")])])
      = .ok (some ⟨Json.str "f", Json.obj []⟩) :=
  ⟨C10_unparseable_arguments_string.1 _ "f" "oops" rfl (by decide) rfl (by decide) rfl,
   C10_unparseable_arguments_string.2.1 _ [("name", Json.str "f"), ("arguments", Json.str "oops")]
      "f" "oops" rfl rfl rfl (by decide) rfl (by decide) rfl⟩
